import Mathlib

/-
Verification of the outlier-replacement program (src/outlier.py).

The program builds an integer numpy array from a list of rows, computes the
per-column mean and population standard deviation in floating point, flags
every cell whose absolute z-score exceeds a threshold, and overwrites each
flagged cell with the column mean cast back to the integer dtype.

Embedding notes:
- Tables are `List (List ℤ)`; all statistics are exact rationals.  The real
  arithmetic of the float computation is modelled exactly: the comparison
  `|v - mean| / std > thr` (with std the square root of the variance) is
  expressed without square roots by comparing squares, which is equivalent
  for a nonnegative threshold whenever the variance is positive.
- When the variance is zero, the IEEE semantics of the source apply:
  `0/0` is NaN and every comparison with NaN is false, while `x/0` with
  `x ≠ 0` is infinite and exceeds every finite threshold.  `zExceeds`
  reproduces exactly this case split.
- The assignment `datas[i, j] = m[j]` stores a float into an int64 array,
  which truncates toward zero (C cast); `truncToInt` models that cast.
- `np.array` on a ragged list of rows raises, which the Option-valued
  `outlier_filter` models as `none`; the `__main__` block (load phase plus
  the call of the filter with the default threshold 1) is `main_pipeline`,
  where indexing `lines[0]` of an empty file is the `none` of `load_phase`.
-/

namespace Ksort

/-- Cell access in a row-major table, mirroring `datas[i][j]` (out of range
reads default to `[]` and `0`; the claims always carry bounds). -/
def cell (t : List (List ℤ)) (i j : ℕ) : ℤ := (t.getD i []).getD j 0

/-- Column `j` of the table, the data that `axis = 0` aggregations see. -/
def column (datas : List (List ℤ)) (j : ℕ) : List ℤ :=
  datas.map (fun row => row.getD j 0)

/-- Arithmetic mean of a column, `datas.mean(axis = 0)` for one column. -/
def mean (col : List ℤ) : ℚ :=
  ((col.map (fun v : ℤ => (v : ℚ))).sum) / col.length

/-- Population variance of a column (divisor = length).  The source uses
`datas.std(axis = 0)`, the square root of this value; comparisons against
the standard deviation are done on squares below, so the square root never
needs to be taken. -/
def var (col : List ℤ) : ℚ :=
  ((col.map (fun v : ℤ => ((v : ℚ) - mean col) ^ 2)).sum) / col.length

/-- The float-to-int64 store `datas[i, j] = m[j]`: C-style truncation toward
zero. -/
def truncToInt (q : ℚ) : ℤ := if 0 ≤ q then ⌊q⌋ else ⌈q⌉

/-- The test `z[i, j] > threshold` where
`z = np.abs((datas - mean) / std)` and `std = sqrt v2`.  For `v2 = 0` the
IEEE division gives NaN (numerator zero: never exceeds) or +infinity
(numerator nonzero: always exceeds); for `v2 > 0` and `0 ≤ thr` the strict
comparison of nonnegative reals is equivalent to the comparison of their
squares; for `thr < 0` any z-score (nonnegative) exceeds it. -/
def zExceeds (v : ℤ) (μ v2 thr : ℚ) : Bool :=
  if v2 = 0 then
    (if (v : ℚ) = μ then false else true)
  else if 0 ≤ thr then
    (if ((v : ℚ) - μ) ^ 2 > thr ^ 2 * v2 then true else false)
  else true

/-- The inner loop `for j in range(z.shape[1])` of `outlier_filter` applied
to row `i`: every flagged cell becomes the truncated column mean, every
other cell keeps its value.  Statistics are those of the ORIGINAL table
(`z` and `m` are computed before the loop mutates the array). -/
def filterRow (datas : List (List ℤ)) (thr : ℚ) (row : List ℤ) : List ℤ :=
  (List.range row.length).map (fun j =>
    if zExceeds (row.getD j 0) (mean (column datas j)) (var (column datas j)) thr
    then truncToInt (mean (column datas j))
    else row.getD j 0)

/-- Both loops of `outlier_filter` after `np.array` succeeded. -/
def filter_core (datas : List (List ℤ)) (thr : ℚ) : List (List ℤ) :=
  datas.map (filterRow datas thr)

/-- Whether `np.array(datas)` builds a rectangular 2-d array: every row has
the length of the first row. -/
def isRect (datas : List (List ℤ)) : Bool :=
  datas.all (fun row => row.length == (datas.headD []).length)

/-- The function `outlier_filter(datas, threshold)` of src/outlier.py.
`np.array` raises on a ragged list of rows (`none`); otherwise the table
with the flagged cells replaced is returned. -/
def outlier_filter (datas : List (List ℤ)) (thr : ℚ) : Option (List (List ℤ)) :=
  if isRect datas then some (filter_core datas thr) else none

/-- The load phase of the `__main__` block, after tokenising and integer
parsing: `lines[0]` raises IndexError on an empty file, `num_case` is the
token count of the first line (computed but never checked against the other
rows), and the parsed rows are passed on unchanged. -/
def load_phase (lines : List (List ℤ)) : Option (ℕ × List (List ℤ)) :=
  match lines with
  | [] => none
  | first :: rest => some (first.length, first :: rest)

/-- The `__main__` pipeline up to the transform: load, then
`outlier_filter(datas)` with the default threshold 1. -/
def main_pipeline (lines : List (List ℤ)) : Option (List (List ℤ)) :=
  match load_phase lines with
  | none => none
  | some (_, datas) => outlier_filter datas 1

/-! Helper lemmas. -/

lemma length_filterRow (datas : List (List ℤ)) (thr : ℚ) (row : List ℤ) :
    (filterRow datas thr row).length = row.length := by
  simp [filterRow]

lemma length_filter_core (datas : List (List ℤ)) (thr : ℚ) :
    (filter_core datas thr).length = datas.length := by
  simp [filter_core]

lemma cell_filter_core (datas : List (List ℤ)) (thr : ℚ) (i j : ℕ)
    (hi : i < datas.length) (hj : j < (datas.getD i []).length) :
    cell (filter_core datas thr) i j =
      if zExceeds (cell datas i j) (mean (column datas j)) (var (column datas j)) thr
      then truncToInt (mean (column datas j))
      else cell datas i j := by
  have hgd : datas.getD i [] = datas[i] := List.getD_eq_getElem datas [] hi
  have hj' : j < (datas[i]).length := by rw [← hgd]; exact hj
  have hmap : (List.map (filterRow datas thr) datas).getD i []
      = filterRow datas thr datas[i] := by
    rw [List.getD_eq_getElem _ _ (by simpa using hi), List.getElem_map]
  have hrow : (filterRow datas thr datas[i]).getD j 0
      = if zExceeds ((datas[i]).getD j 0) (mean (column datas j))
          (var (column datas j)) thr
        then truncToInt (mean (column datas j))
        else (datas[i]).getD j 0 := by
    unfold filterRow
    rw [List.getD_eq_getElem _ _ (by simpa using hj'), List.getElem_map,
      List.getElem_range]
  have hstep : cell (filter_core datas thr) i j
      = (filterRow datas thr datas[i]).getD j 0 := by
    show ((List.map (filterRow datas thr) datas).getD i []).getD j 0 = _
    rw [hmap]
  rw [hstep, hrow]
  simp only [cell, hgd]

lemma cell_mem_column (datas : List (List ℤ)) (i j : ℕ) (hi : i < datas.length) :
    cell datas i j ∈ column datas j := by
  unfold cell column
  rw [List.getD_eq_getElem datas [] hi]
  exact List.mem_map.mpr ⟨datas[i], List.getElem_mem hi, rfl⟩

lemma column_ne_nil {datas : List (List ℤ)} (j : ℕ) (hne : datas ≠ []) :
    column datas j ≠ [] := by
  simp [column, hne]

lemma sum_sq_nonneg (l : List ℚ) : 0 ≤ (l.map (fun x => x ^ 2)).sum := by
  apply List.sum_nonneg
  intro x hx
  obtain ⟨y, -, rfl⟩ := List.mem_map.mp hx
  positivity

lemma sq_sum_zero {l : List ℚ} (h : (l.map (fun x => x ^ 2)).sum = 0) :
    ∀ x ∈ l, x = 0 := by
  induction l with
  | nil => simp
  | cons a t ih =>
    simp only [List.map_cons, List.sum_cons] at h
    have ha : (0 : ℚ) ≤ a ^ 2 := sq_nonneg a
    have ht : (0 : ℚ) ≤ (t.map (fun x => x ^ 2)).sum := sum_sq_nonneg t
    have hz := (add_eq_zero_iff_of_nonneg ha ht).mp h
    intro x hx
    rcases List.mem_cons.mp hx with rfl | hx'
    · exact pow_eq_zero_iff (two_ne_zero) |>.mp hz.1
    · exact ih hz.2 x hx'

lemma var_nonneg (col : List ℤ) : 0 ≤ var col := by
  unfold var
  apply div_nonneg
  · apply List.sum_nonneg
    intro x hx
    obtain ⟨v, -, rfl⟩ := List.mem_map.mp hx
    positivity
  · positivity

lemma eq_mean_of_var_eq_zero {col : List ℤ} (hc : col ≠ []) (h : var col = 0) :
    ∀ v ∈ col, (v : ℚ) = mean col := by
  intro v hv
  have hmap : col.map (fun v : ℤ => ((v : ℚ) - mean col) ^ 2)
      = (col.map (fun v : ℤ => (v : ℚ) - mean col)).map (fun x => x ^ 2) := by
    simp [List.map_map]
  have hlen : (0 : ℚ) < (col.length : ℚ) := by
    exact_mod_cast List.length_pos.mpr hc
  unfold var at h
  rw [div_eq_zero_iff] at h
  rcases h with h | h
  · have h0 := sq_sum_zero (l := col.map (fun v : ℤ => (v : ℚ) - mean col))
      (by rw [← hmap]; exact h)
    have hv2 : ((v : ℚ) - mean col) ∈ col.map (fun v : ℤ => (v : ℚ) - mean col) :=
      List.mem_map.mpr ⟨v, hv, rfl⟩
    have := h0 _ hv2
    linarith
  · linarith

lemma zExceeds_eq_false_of_var_zero (datas : List (List ℤ)) (thr : ℚ) (i j : ℕ)
    (hne : datas ≠ []) (hi : i < datas.length)
    (hv : var (column datas j) = 0) :
    zExceeds (cell datas i j) (mean (column datas j)) (var (column datas j)) thr
      = false := by
  unfold zExceeds
  rw [if_pos hv,
    if_pos (eq_mean_of_var_eq_zero (column_ne_nil j hne) hv _
      (cell_mem_column datas i j hi))]

lemma zExceeds_eq_false_of_sq_le (datas : List (List ℤ)) (thr : ℚ) (i j : ℕ)
    (hne : datas ≠ []) (hi : i < datas.length) (hthr : 0 ≤ thr)
    (hz : ((cell datas i j : ℚ) - mean (column datas j)) ^ 2
      ≤ thr ^ 2 * var (column datas j)) :
    zExceeds (cell datas i j) (mean (column datas j)) (var (column datas j)) thr
      = false := by
  by_cases hv : var (column datas j) = 0
  · exact zExceeds_eq_false_of_var_zero datas thr i j hne hi hv
  · unfold zExceeds
    rw [if_neg hv, if_pos hthr, if_neg (not_lt.mpr hz)]

lemma zExceeds_eq_true_of_lt (datas : List (List ℤ)) (thr : ℚ) (i j : ℕ)
    (hne : datas ≠ []) (hi : i < datas.length) (hthr : 0 ≤ thr)
    (hz : thr ^ 2 * var (column datas j)
      < ((cell datas i j : ℚ) - mean (column datas j)) ^ 2) :
    zExceeds (cell datas i j) (mean (column datas j)) (var (column datas j)) thr
      = true := by
  by_cases hv : var (column datas j) = 0
  · exfalso
    have hmem := eq_mean_of_var_eq_zero (column_ne_nil j hne) hv _
      (cell_mem_column datas i j hi)
    rw [hv, hmem] at hz
    simp at hz
  · unfold zExceeds
    rw [if_neg hv, if_pos hthr, if_pos hz]

lemma mean_singleton (v : ℤ) : mean [v] = (v : ℚ) := by
  simp [mean]

lemma var_singleton (v : ℤ) : var [v] = 0 := by
  simp [var, mean_singleton]

lemma zExceeds_singleton (v : ℤ) (thr : ℚ) :
    zExceeds v (mean [v]) (var [v]) thr = false := by
  unfold zExceeds
  rw [if_pos (var_singleton v), if_pos (mean_singleton v).symm]

lemma filterRow_singleton (r : List ℤ) (thr : ℚ) : filterRow [r] thr r = r := by
  apply List.ext_getElem
  · simp [filterRow]
  · intro n h1 h2
    unfold filterRow
    rw [List.getElem_map, List.getElem_range]
    have hcol : column [r] n = [r.getD n 0] := by simp [column]
    rw [hcol, zExceeds_singleton]
    simp [List.getD, List.getElem?_eq_getElem h2]

/-! Claim theorems. -/

/-- C1: for every non-empty rectangular integer table and positive
threshold, every cell whose absolute z-score (|value - column mean| divided
by the column population standard deviation, divisor = row count) is
strictly greater than the threshold is, in the table returned by
outlier_filter, equal to the column mean cast to the integer representation.
The z-score comparison is stated on squares: z > thr iff
thr^2 * var < (value - mean)^2 for a positive threshold. -/
theorem C1_outlier_replaced (datas : List (List ℤ)) (thr : ℚ) (i j : ℕ)
    (hrect : isRect datas = true) (hne : datas ≠ []) (hthr : 0 < thr)
    (hi : i < datas.length) (hj : j < (datas.getD i []).length)
    (hz : thr ^ 2 * var (column datas j)
      < ((cell datas i j : ℚ) - mean (column datas j)) ^ 2) :
    ∃ out, outlier_filter datas thr = some out ∧
      cell out i j = truncToInt (mean (column datas j)) := by
  refine ⟨filter_core datas thr, by simp [outlier_filter, hrect], ?_⟩
  rw [cell_filter_core datas thr i j hi hj]
  simp [zExceeds_eq_true_of_lt datas thr i j hne hi hthr.le hz]

/-- Witness for C1 on the table [[1],[2],[3],[100]] with threshold 1: the
cell 100 at row 3 has squared deviation 21609/4 > 7205/4 = variance, so it
is replaced with the truncated column mean. -/
theorem C1_witness :
    ∃ out, outlier_filter [[1], [2], [3], [100]] (1 : ℚ) = some out ∧
      cell out 3 0 = truncToInt (mean (column [[1], [2], [3], [100]] 0)) :=
  C1_outlier_replaced [[1], [2], [3], [100]] 1 3 0 (by rfl) (by simp)
    (by norm_num) (by norm_num) (by simp)
    (by norm_num [cell, column, mean, var])

/-- C2: for every non-empty rectangular table and positive threshold, every
cell whose absolute z-score is at most the threshold, as well as every cell
in a column of zero standard deviation, is preserved exactly by
outlier_filter. -/
theorem C2_nonoutlier_preserved (datas : List (List ℤ)) (thr : ℚ) (i j : ℕ)
    (hrect : isRect datas = true) (hne : datas ≠ []) (hthr : 0 < thr)
    (hi : i < datas.length) (hj : j < (datas.getD i []).length)
    (hz : var (column datas j) = 0 ∨
      ((cell datas i j : ℚ) - mean (column datas j)) ^ 2
        ≤ thr ^ 2 * var (column datas j)) :
    ∃ out, outlier_filter datas thr = some out ∧
      cell out i j = cell datas i j := by
  refine ⟨filter_core datas thr, by simp [outlier_filter, hrect], ?_⟩
  rw [cell_filter_core datas thr i j hi hj]
  rcases hz with hv | hle
  · simp [zExceeds_eq_false_of_var_zero datas thr i j hne hi hv]
  · simp [zExceeds_eq_false_of_sq_le datas thr i j hne hi hthr.le hle]

/-- Witness for C2 on the table [[1],[2],[3],[100]] with threshold 1: the
cell 1 at row 0 has squared deviation 2601/4 which is at most the variance
7205/4, so it is kept. -/
theorem C2_witness :
    ∃ out, outlier_filter [[1], [2], [3], [100]] (1 : ℚ) = some out ∧
      cell out 0 0 = cell [[1], [2], [3], [100]] 0 0 :=
  C2_nonoutlier_preserved [[1], [2], [3], [100]] 1 0 0 (by rfl) (by simp)
    (by norm_num) (by norm_num) (by simp)
    (Or.inr (by norm_num [cell, column, mean, var]))

/-- C3: every column in which all values are identical (zero variance) is
returned unmodified by outlier_filter regardless of the threshold; in
particular a table with exactly one row is returned identical to the
input. -/
theorem C3_zero_variance (datas : List (List ℤ)) (thr : ℚ) (i j : ℕ)
    (hrect : isRect datas = true) (hne : datas ≠ [])
    (hi : i < datas.length) (hj : j < (datas.getD i []).length)
    (hvar : var (column datas j) = 0) :
    (∃ out, outlier_filter datas thr = some out ∧
      cell out i j = cell datas i j) ∧
    (∀ r : List ℤ, outlier_filter [r] thr = some [r]) := by
  constructor
  · refine ⟨filter_core datas thr, by simp [outlier_filter, hrect], ?_⟩
    rw [cell_filter_core datas thr i j hi hj]
    simp [zExceeds_eq_false_of_var_zero datas thr i j hne hi hvar]
  · intro r
    have hrect1 : isRect [r] = true := by simp [isRect]
    have hcore : filter_core [r] thr = [r] := by
      show [filterRow [r] thr r] = [r]
      rw [filterRow_singleton]
    simp [outlier_filter, hrect1, hcore]

/-- Witness for C3 on the constant table [[5,5],[5,5],[5,5]] with threshold
7: column 0 has zero variance and cell (2,0) is kept; a one-row table is
returned unchanged. -/
theorem C3_witness :
    (∃ out, outlier_filter [[5, 5], [5, 5], [5, 5]] (7 : ℚ) = some out ∧
      cell out 2 0 = cell [[5, 5], [5, 5], [5, 5]] 2 0) ∧
    outlier_filter [[9, 3, 7]] (7 : ℚ) = some [[9, 3, 7]] :=
  ⟨(C3_zero_variance [[5, 5], [5, 5], [5, 5]] 7 2 0 (by rfl) (by simp)
      (by norm_num) (by simp) (by norm_num [var, mean, column])).1,
   (C3_zero_variance [[5, 5], [5, 5], [5, 5]] 7 2 0 (by rfl) (by simp)
      (by norm_num) (by simp) (by norm_num [var, mean, column])).2 [9, 3, 7]⟩

/-- C4: for every valid (non-empty rectangular) table and positive
threshold, the table returned by outlier_filter has exactly the row count
and the per-row column counts of the input. -/
theorem C4_shape (datas : List (List ℤ)) (thr : ℚ)
    (hrect : isRect datas = true) (hne : datas ≠ []) (hthr : 0 < thr) :
    ∃ out, outlier_filter datas thr = some out ∧ out.length = datas.length ∧
      ∀ i, (out.getD i []).length = (datas.getD i []).length := by
  refine ⟨filter_core datas thr, by simp [outlier_filter, hrect],
    length_filter_core datas thr, ?_⟩
  intro i
  by_cases hi : i < datas.length
  · have h1 : (filter_core datas thr).getD i []
        = filterRow datas thr datas[i] := by
      unfold filter_core
      rw [List.getD_eq_getElem _ _ (by simpa using hi), List.getElem_map]
    rw [h1, length_filterRow, List.getD_eq_getElem datas [] hi]
  · have h2 : datas.length ≤ i := le_of_not_lt hi
    rw [List.getD_eq_default _ _ (by simpa [length_filter_core] using h2),
      List.getD_eq_default _ _ h2]

/-- Witness for C4 on the table [[1,2],[3,4]] with threshold 1. -/
theorem C4_witness :
    ∃ out, outlier_filter [[1, 2], [3, 4]] (1 : ℚ) = some out ∧
      out.length = ([[1, 2], [3, 4]] : List (List ℤ)).length ∧
      ∀ i, (out.getD i []).length
        = (([[1, 2], [3, 4]] : List (List ℤ)).getD i []).length :=
  C4_shape [[1, 2], [3, 4]] 1 (by rfl) (by simp) (by norm_num)

/-- C5: a cell whose absolute z-score is exactly equal to the (positive)
threshold is never replaced: the outlier test is strict.  Exact equality of
the z-score with the threshold is stated on squares:
(value - mean)^2 = thr^2 * var. -/
theorem C5_boundary_kept (datas : List (List ℤ)) (thr : ℚ) (i j : ℕ)
    (hrect : isRect datas = true) (hne : datas ≠ []) (hthr : 0 < thr)
    (hi : i < datas.length) (hj : j < (datas.getD i []).length)
    (hz : ((cell datas i j : ℚ) - mean (column datas j)) ^ 2
      = thr ^ 2 * var (column datas j)) :
    ∃ out, outlier_filter datas thr = some out ∧
      cell out i j = cell datas i j := by
  refine ⟨filter_core datas thr, by simp [outlier_filter, hrect], ?_⟩
  rw [cell_filter_core datas thr i j hi hj]
  simp [zExceeds_eq_false_of_sq_le datas thr i j hne hi hthr.le hz.le]

/-- Witness for C5 on the table [[0],[2]] with threshold 1: the column has
mean 1 and variance 1, so the cell 0 has z-score exactly 1 and is kept. -/
theorem C5_witness :
    ∃ out, outlier_filter [[0], [2]] (1 : ℚ) = some out ∧
      cell out 0 0 = cell [[0], [2]] 0 0 :=
  C5_boundary_kept [[0], [2]] 1 0 0 (by rfl) (by simp) (by norm_num)
    (by norm_num) (by simp) (by norm_num [cell, column, mean, var])

/-- C6 counterexample: on the table [[1,100],[2,102],[3,98],[100,101]] with
threshold 1, outlier_filter does NOT leave column 1 unchanged: column 1 has
mean 401/4 and variance 35/16, the cells 102 and 98 have squared deviations
49/16 and 81/16 exceeding the variance, so both are replaced with 100.  The
cell at row 1, column 1 changes from 102 to 100. -/
theorem C6_counterexample :
    outlier_filter [[1, 100], [2, 102], [3, 98], [100, 101]] 1
      = some [[1, 100], [2, 100], [3, 100], [26, 101]] ∧
    cell [[1, 100], [2, 100], [3, 100], [26, 101]] 1 1
      ≠ cell [[1, 100], [2, 102], [3, 98], [100, 101]] 1 1 := by
  constructor
  · have hrect : isRect [[1, 100], [2, 102], [3, 98], [100, 101]] = true := by
      rfl
    rw [outlier_filter, if_pos hrect]
    norm_num [filter_core, filterRow, column, mean, var, zExceeds, truncToInt,
      List.range_succ]
  · simp [cell]

/-- C6 amended: on [[1,100],[2,102],[3,98],[100,101]] with threshold 1 the
cell 100 of column 0 is replaced with 26 (the truncated column-0 mean 53/2),
the cells 102 and 98 of column 1 are replaced with 100 (the truncated
column-1 mean 401/4), and all other cells are unchanged. -/
theorem C6_amended :
    outlier_filter [[1, 100], [2, 102], [3, 98], [100, 101]] 1
      = some [[1, 100], [2, 100], [3, 100], [26, 101]] ∧
    truncToInt (mean (column [[1, 100], [2, 102], [3, 98], [100, 101]] 0))
      = 26 ∧
    truncToInt (mean (column [[1, 100], [2, 102], [3, 98], [100, 101]] 1))
      = 100 := by
  refine ⟨?_, ?_, ?_⟩
  · have hrect : isRect [[1, 100], [2, 102], [3, 98], [100, 101]] = true := by
      rfl
    rw [outlier_filter, if_pos hrect]
    norm_num [filter_core, filterRow, column, mean, var, zExceeds, truncToInt,
      List.range_succ]
  · norm_num [truncToInt, mean, column]
  · norm_num [truncToInt, mean, column]

/-- C7: a second application of outlier_filter with recomputed statistics
need not be a no-op: on [[1],[2],[3],[100]] with threshold 1 the first pass
yields [[1],[2],[3],[26]] and the second pass then replaces 26 (mean 8,
variance 217/2, squared deviation 324) with 8. -/
theorem C7_not_idempotent :
    ∃ (datas : List (List ℤ)) (thr : ℚ), isRect datas = true ∧ datas ≠ [] ∧
      0 < thr ∧
      (outlier_filter datas thr).bind (fun out => outlier_filter out thr)
        ≠ outlier_filter datas thr := by
  refine ⟨[[1], [2], [3], [100]], 1, by rfl, by simp, by norm_num, ?_⟩
  have h1 : outlier_filter [[1], [2], [3], [100]] 1
      = some [[1], [2], [3], [26]] := by
    rw [outlier_filter, if_pos (by rfl)]
    norm_num [filter_core, filterRow, column, mean, var, zExceeds, truncToInt,
      List.range_succ]
  have h2 : outlier_filter [[1], [2], [3], [26]] 1
      = some [[1], [2], [3], [8]] := by
    rw [outlier_filter, if_pos (by rfl)]
    norm_num [filter_core, filterRow, column, mean, var, zExceeds, truncToInt,
      List.range_succ]
  rw [h1]
  show outlier_filter [[1], [2], [3], [26]] 1 ≠ some [[1], [2], [3], [26]]
  rw [h2]
  simp

/-- C8 counterexample: on the ragged input [[1,2],[3]] the load phase does
NOT fail (it computes num_case = 2 from the first line and never compares
the other rows against it); the failure happens inside outlier_filter, whose
np.array conversion rejects the inhomogeneous rows. -/
theorem C8_counterexample :
    load_phase [[1, 2], [3]] = some (2, [[1, 2], [3]]) ∧
    outlier_filter [[1, 2], [3]] 1 = none := by
  exact ⟨rfl, rfl⟩

/-- C8 amended: for every non-empty input whose rows have differing token
counts, the load phase succeeds without any validation, and the program then
fails inside outlier_filter (the np.array conversion raises before any
statistics are computed), so the pipeline produces no output. -/
theorem C8_amended (lines : List (List ℤ)) (hne : lines ≠ [])
    (hrag : isRect lines = false) :
    (∃ n, load_phase lines = some (n, lines)) ∧
    outlier_filter lines 1 = none ∧ main_pipeline lines = none := by
  obtain ⟨first, rest, rfl⟩ := List.exists_cons_of_ne_nil hne
  refine ⟨⟨first.length, rfl⟩, ?_, ?_⟩
  · rw [outlier_filter, if_neg (by simp [hrag])]
  · show (match load_phase (first :: rest) with
      | none => none
      | some (_, datas) => outlier_filter datas 1) = none
    rw [load_phase]
    show outlier_filter (first :: rest) 1 = none
    rw [outlier_filter, if_neg (by simp [hrag])]

/-- Witness for C8 on the ragged input [[1,2],[3]]. -/
theorem C8_witness :
    (∃ n, load_phase [[1, 2], [3]] = some (n, [[1, 2], [3]])) ∧
    outlier_filter [[1, 2], [3]] 1 = none ∧
    main_pipeline [[1, 2], [3]] = none :=
  C8_amended [[1, 2], [3]] (by simp) (by rfl)

/-- C9 counterexample: a table with zero columns is NOT rejected: the input
[[]] (one blank line) passes the load phase, outlier_filter accepts it (the
column loop body never runs), and the pipeline returns it unchanged, so no
error is ever raised for the zero-column case. -/
theorem C9_counterexample :
    load_phase [[]] = some (0, [[]]) ∧ outlier_filter [[]] 1 = some [[]] ∧
    main_pipeline [[]] = some [[]] := by
  exact ⟨rfl, rfl, rfl⟩

/-- C9 amended: a table with zero rows (an empty file) is rejected during
the load phase (indexing the first line fails) before any statistics are
computed, but a table with zero columns is not rejected: it passes through
the whole pipeline unchanged. -/
theorem C9_amended (lines : List (List ℤ)) (hne : lines ≠ [])
    (hz : ∀ r ∈ lines, r = []) :
    load_phase ([] : List (List ℤ)) = none ∧
    main_pipeline lines = some lines := by
  refine ⟨rfl, ?_⟩
  obtain ⟨first, rest, rfl⟩ := List.exists_cons_of_ne_nil hne
  have hrect : isRect (first :: rest) = true := by
    simp only [isRect, List.all_eq_true]
    intro r hr
    rw [hz r hr, hz first (by simp)]
    simp
  have hrows : ∀ r ∈ first :: rest, filterRow (first :: rest) 1 r = r := by
    intro r hr
    rw [hz r hr]
    rfl
  have hcore : filter_core (first :: rest) 1 = first :: rest := by
    unfold filter_core
    rw [List.map_congr_left hrows]
    simp
  show (match load_phase (first :: rest) with
    | none => none
    | some (_, datas) => outlier_filter datas 1) = some (first :: rest)
  rw [load_phase]
  show outlier_filter (first :: rest) 1 = some (first :: rest)
  rw [outlier_filter, if_pos hrect, hcore]

/-- Witness for C9 on the zero-column input [[]]. -/
theorem C9_witness :
    load_phase ([] : List (List ℤ)) = none ∧
    main_pipeline [[]] = some [[]] :=
  C9_amended [[]] (by simp) (by simp)

end Ksort
